import Mathlib

/-!
# Gitpod local CLI: `auth`, `config` and `workspace list`

A shallow embedding of `components/local-app/cmd/{auth,config,workspace-list}.go`.

* Go strings that are sliced by byte offset (`phase[6:]`) are byte sequences.
* The operating-system keyring, the config file and the remote service are explicit
  state that each command handler receives and returns.
* A Go run-time panic is an explicit `Fault` result.
-/

namespace Gitpod

/-! ## Go strings -/

/-- A Go string: an immutable sequence of bytes (each element is a byte value, `< 256`). -/
abbrev GoString := List Nat

/-- UTF-8 encoding of one code point, as a list of byte values. -/
def utf8Bytes (c : Nat) : List Nat :=
  if c < 0x80 then [c]
  else if c < 0x800 then [0xC0 + c / 0x40, 0x80 + c % 0x40]
  else if c < 0x10000 then [0xE0 + c / 0x1000, 0x80 + c / 0x40 % 0x40, 0x80 + c % 0x40]
  else [0xF0 + c / 0x40000, 0x80 + c / 0x1000 % 0x40, 0x80 + c / 0x40 % 0x40, 0x80 + c % 0x40]

/-- The bytes of a Go string literal (Go source text is UTF-8). -/
def goStr (s : String) : GoString :=
  (s.data.map (fun ch => utf8Bytes ch.toNat)).flatten

/-- A Go run-time panic. -/
inductive Fault where
  | sliceBounds
  | nilDereference
  deriving DecidableEq, Repr

/-- Go slice expression `s[lo:]` on a string: panics when `lo > len(s)`. -/
def sliceFrom (s : GoString) (lo : Nat) : Except Fault GoString :=
  if lo ≤ s.length then .ok (s.drop lo) else .error .sliceBounds

/-- The byte step of the ASCII path of `strings.ToLower`:
`if 'A' <= c && c <= 'Z' { c += 'a' - 'A' }`. -/
def lowerByte (c : Nat) : Nat :=
  if 65 ≤ c ∧ c ≤ 90 then c + (97 - 65) else c

/-- Go `strings.ToLower`. A string with no byte `>= utf8.RuneSelf` (0x80) takes the ASCII
path, which lower-cases byte by byte; any other string is handed to
`strings.Map(unicode.ToLower, s)`, whose Unicode tables are the parameter `mapLower`. -/
def ToLower (mapLower : GoString → GoString) (s : GoString) : GoString :=
  if s.all (fun c => decide (c < 0x80)) then s.map lowerByte else mapLower s

/-! ## workspace-list.go -/

/-- Source: `func TranslatePhase(phase string) string { return strings.ToLower(phase[6:]) }`. -/
def TranslatePhase (mapLower : GoString → GoString) (phase : GoString) : Except Fault GoString :=
  match sliceFrom phase 6 with
  | .ok rest => .ok (ToLower mapLower rest)
  | .error f => .error f

/-- Go `error` values that the handlers pass around. -/
inductive Error where
  | notFound
  | storeUnavailable
  | storeDenied
  | persistence
  | connection
  | rejected
  | encoding
  deriving DecidableEq, Repr

/-- The payload of a `*timestamppb.Timestamp`. -/
structure Timestamp where
  Seconds : Int
  Nanos : Int
  deriving DecidableEq, Repr

/-- Type `v1.WorkspaceInstanceStatus`: `Phase` is the enum number. -/
structure WorkspaceInstanceStatus where
  Phase : Int
  deriving DecidableEq, Repr

/-- Type `v1.WorkspaceInstance`; a pointer field is an `Option` (`none` is the nil pointer). -/
structure WorkspaceInstance where
  CreatedAt : Option Timestamp
  Status : Option WorkspaceInstanceStatus
  deriving DecidableEq, Repr

/-- Type `v1.WorkspaceStatus`. -/
structure WorkspaceStatus where
  Instance : Option WorkspaceInstance
  deriving DecidableEq, Repr

/-- Type `v1.WorkspaceContext`. -/
structure WorkspaceContext where
  ContextUrl : GoString
  deriving DecidableEq, Repr

/-- Type `v1.Workspace`. -/
structure Workspace where
  WorkspaceId : GoString
  Status : Option WorkspaceStatus
  Context : Option WorkspaceContext
  deriving DecidableEq, Repr

/-- A Go slice value: `none` is the nil slice, `some xs` a non-nil slice (possibly empty). -/
abbrev Slice (α : Type) := Option (List α)

/-- The elements a `for ... range` loop visits (none for the nil slice). -/
def Slice.elems {α : Type} : Slice α → List α
  | none => []
  | some xs => xs

/-- Library functions used by `workspace list` whose bodies live outside the repository. -/
structure Library where
  /-- Go `strings.Map(unicode.ToLower, s)`. -/
  mapLower : GoString → GoString
  /-- The generated `WorkspaceInstanceStatus_Phase.String()`. -/
  phaseString : Int → GoString
  /-- The text of `humanize.Time(ts.AsTime())` at the time of the run (`AsTime` accepts a
  nil receiver). -/
  humanizeTime : Option Timestamp → GoString
  /-- Go `encoding/json` on one `*v1.Workspace` element. -/
  marshalWorkspace : Workspace → Except Error GoString

/-- Go `strings.Join`-style intercalation with a one-byte separator. -/
def joinWith (sep : Nat) : List GoString → GoString
  | [] => []
  | [x] => x
  | x :: y :: rest => x ++ sep :: joinWith sep (y :: rest)

/-- Marshal every element, stopping at the first error. -/
def marshalAll (lib : Library) : List Workspace → Except Error (List GoString)
  | [] => .ok []
  | w :: ws =>
    match lib.marshalWorkspace w with
    | .error e => .error e
    | .ok j =>
      match marshalAll lib ws with
      | .error e => .error e
      | .ok js => .ok (j :: js)

/-- Go `json.Marshal` on a `[]*v1.Workspace`: "a nil slice encodes as the null JSON value";
a non-nil slice encodes as `[e1,e2,...]`. -/
def jsonMarshal (lib : Library) : Slice Workspace → Except Error GoString
  | none => .ok (goStr "null")
  | some ws =>
    match marshalAll lib ws with
    | .error e => .error e
    | .ok js => .ok (goStr "[" ++ joinWith 44 js ++ goStr "]")

/-- What the command writes to standard output. -/
inductive Output where
  | println (line : GoString)
  | printlnErr (e : Error)
  | render (header : List GoString) (rows : List (List GoString))
  deriving DecidableEq, Repr

/-- Result of a run that did not panic. -/
structure ListOutcome where
  output : List Output
  err : Option Error
  deriving DecidableEq, Repr

/-- One iteration of the loop body of `listWorkspaceCommand` (lines 61-66): the row appended
to the table. -/
def tableRow (lib : Library) (workspace : Workspace) : Except Fault (List GoString) :=
  -- workspace.GetStatus().Instance
  match workspace.Status with
  | none => .error .nilDereference
  | some status =>
    -- .Instance.CreatedAt / .Instance.Status
    match status.Instance with
    | none => .error .nilDereference
    | some inst =>
      let timeAgo := lib.humanizeTime inst.CreatedAt
      -- .Status.Phase
      match inst.Status with
      | none => .error .nilDereference
      | some st =>
        match TranslatePhase lib.mapLower (lib.phaseString st.Phase) with
        | .error f => .error f
        | .ok phase =>
          -- workspace.Context.ContextUrl
          match workspace.Context with
          | none => .error .nilDereference
          | some ctx => .ok [workspace.WorkspaceId, phase, timeAgo, ctx.ContextUrl]

/-- The `for _, workspace := range ...` loop: rows in order, or the first panic. -/
def tableRows (lib : Library) : List Workspace → Except Fault (List (List GoString))
  | [] => .ok []
  | w :: ws =>
    match tableRow lib w with
    | .error f => .error f
    | .ok row =>
      match tableRows lib ws with
      | .error f => .error f
      | .ok rows => .ok (row :: rows)

/-- The table header set by `table.SetHeader`. -/
def tableHeader : List GoString :=
  [goStr "Workspace ID", goStr "Phase", goStr "Created", goStr "Context URL"]

/-- The handler `listWorkspaceCommand.RunE`. `getClient` is the error of
`common.GetGitpodClient(ctx)`, `listWorkspaces` the result of
`gitpod.Workspaces.ListWorkspaces` (its `Msg.GetResult()`), `JsonOutput` the global JSON
flag. -/
def listWorkspaceCommand (lib : Library) (getClient : Option Error)
    (listWorkspaces : Except Error (Slice Workspace)) (JsonOutput : Bool) :
    Except Fault ListOutcome :=
  match getClient with
  | some e => .ok ⟨[], some e⟩
  | none =>
    match listWorkspaces with
    | .error e => .ok ⟨[], some e⟩
    | .ok result =>
      if JsonOutput then
        match jsonMarshal lib result with
        | .error e => .ok ⟨[.printlnErr e], some e⟩
        | .ok workspaceJSON => .ok ⟨[.println workspaceJSON], none⟩
      else
        match tableRows lib result.elems with
        | .error f => .error f
        | .ok rows => .ok ⟨[.render tableHeader rows], none⟩

/-! ## auth.go -/

/-- The operating-system secret store behind `github.com/zalando/go-keyring`.
`reachable = false`: no secret-storage backend can be reached, every call fails with
`StoreUnavailable`. `permitted = false`: writes are refused with `StoreDenied`.
`secrets service account` is the secret held for that pair, if any. -/
structure Keyring where
  reachable : Bool
  permitted : Bool
  secrets : String → String → Option String

namespace keyring

/-- Go `keyring.Set(service, user, password)`. A failed call stores nothing. -/
def Set (k : Keyring) (service account secret : String) : Except Error Keyring :=
  if !k.reachable then .error .storeUnavailable
  else if !k.permitted then .error .storeDenied
  else .ok { k with
    secrets := fun s a => if s = service ∧ a = account then some secret else k.secrets s a }

/-- Go `keyring.Get(service, user)`. -/
def Get (k : Keyring) (service account : String) : Except Error String :=
  if !k.reachable then .error .storeUnavailable
  else
    match k.secrets service account with
    | some secret => .ok secret
    | none => .error .notFound

/-- Go `keyring.Delete(service, user)`. -/
def Delete (k : Keyring) (service account : String) : Except Error Keyring :=
  if !k.reachable then .error .storeUnavailable
  else
    match k.secrets service account with
    | none => .error .notFound
    | some _ => .ok { k with
        secrets := fun s a => if s = service ∧ a = account then none else k.secrets s a }

end keyring

/-- The file-backed configuration: a flat map from key to value, the empty string standing
for an unset key; `writable = false` when the file cannot be written. -/
structure ConfigStore where
  writable : Bool
  entries : String → String

namespace config

/-- Modelled from the spec: package `gitpod-local-cli/config` is not among the sources.
`Init()` is idempotent and only ensures the backing file and its in-memory
representation exist; it changes no entry. -/
def Init (c : ConfigStore) : ConfigStore := c

/-- Modelled from the spec: package `gitpod-local-cli/config` is not among the sources.
`Get(key)` returns the empty string if the key is absent and never fails. -/
def Get (c : ConfigStore) (key : String) : String := c.entries key

/-- Modelled from the spec: package `gitpod-local-cli/config` is not among the sources.
`Set(key, value)` writes the key durably, leaving unrelated keys alone, or fails with a
persistence error if the file cannot be written. -/
def Set (c : ConfigStore) (key value : String) : Except Error ConfigStore :=
  if c.writable then
    .ok { c with entries := fun k => if k = key then value else c.entries k }
  else .error .persistence

end config

namespace viper

/-- Go `viper.Set(key, nil)` as called by logout. The call acts on the configuration as
this process sees it after `config.Init()` and is followed by no write of the file; it is
given its strongest possible effect here, the value under `key` being gone, and it touches
no other key. -/
def SetNil (c : ConfigStore) (key : String) : ConfigStore :=
  { c with entries := fun k => if k = key then "" else c.entries k }

/-- Go `viper.GetString(key)`: the value under `key`, the empty string if unset. -/
def GetString (c : ConfigStore) (key : String) : String := c.entries key

end viper

/-- The remote service as seen through `common.ConstructGitpodClient` and the generated
client: for each token, the error (if any) of constructing a client and of
`PersonalAccessTokens.ListPersonalAccessTokens`. A timeout is one of the errors. -/
structure Remote where
  ConstructGitpodClient : String → Option Error
  ListPersonalAccessTokens : String → Option Error

/-- The local state the auth commands read and write. -/
structure World where
  keyring : Keyring
  config : ConfigStore

/-- Calls and prints made by a command, in program order. -/
inductive Event where
  | println (line : String)
  | constructGitpodClient (token : String)
  | listPersonalAccessTokens (token : String)
  | keyringSet (service account secret : String)
  | keyringGet (service account : String)
  | keyringDelete (service account : String)
  | configInit
  | configGet (key : String)
  | configSet (key value : String)
  | viperSetNil (key : String)
  | viperGetString (key : String)
  deriving DecidableEq, Repr

/-- What a command leaves behind: the local state, the calls it made, the returned error. -/
structure Outcome where
  world : World
  trace : List Event
  err : Option Error

/-- The handler `loginCmd.RunE` (auth.go lines 30-86) with `token = args[0]` and the two flags. -/
def loginCmd (r : Remote) (w : World) (token : String) (noVerify preventPlain : Bool) :
    Outcome :=
  -- if noVerify { return nil }
  if noVerify then ⟨w, [], none⟩
  else
    -- gitpod, err := common.ConstructGitpodClient(ctx, token)
    match r.ConstructGitpodClient token with
    | some e => ⟨w, [.constructGitpodClient token], some e⟩
    | none =>
      -- _, err = gitpod.PersonalAccessTokens.ListPersonalAccessTokens(...)
      let verr := r.ListPersonalAccessTokens token
      -- config.Init(); gitpodHost := config.Get("host")
      let cfg := config.Init w.config
      let gitpodHost := config.Get cfg "host"
      let t0 : List Event :=
        [.constructGitpodClient token, .listPersonalAccessTokens token, .configInit,
         .configGet "host"]
      match verr with
      | some e =>
        ⟨⟨w.keyring, cfg⟩,
         t0 ++ [.println ("Credentials are invalid for " ++ gitpodHost),
                .println "Please check your token and try again"],
         some e⟩
      | none =>
        -- err = keyring.Set("gitpod-cli", "token", token)
        let t1 := t0 ++ [.keyringSet "gitpod-cli" "token" token]
        match keyring.Set w.keyring "gitpod-cli" "token" token with
        | .ok kr =>
          ⟨⟨kr, cfg⟩, t1 ++ [.println ("Successfully logged in to " ++ gitpodHost)], none⟩
        | .error e =>
          -- preventPlainStore, _ := cmd.Flags().GetBool("prevent-plain")
          if preventPlain then ⟨⟨w.keyring, cfg⟩, t1, some e⟩
          else
            -- config.Init(); err = config.Set("token", token)
            let cfg1 := config.Init cfg
            let t2 := t1 ++ [.configInit, .configSet "token" token]
            match config.Set cfg1 "token" token with
            | .error e1 =>
              ⟨⟨w.keyring, cfg1⟩,
               t2 ++ [.println "Could not save token to keyring or config file"], some e1⟩
            | .ok cfg2 =>
              ⟨⟨w.keyring, cfg2⟩,
               t2 ++ [.println "Saved token to config file because keyring was not available",
                      .println ("Successfully logged in to " ++ gitpodHost)],
               none⟩

/-- The handler `logoutCmd.RunE` (auth.go lines 92-102). -/
def logoutCmd (w : World) : Outcome :=
  -- err := keyring.Delete("gitpod-cli", "token")
  match keyring.Delete w.keyring "gitpod-cli" "token" with
  | .error e =>
    -- config.Init(); viper.Set("token", nil); return err
    ⟨⟨w.keyring, viper.SetNil (config.Init w.config) "token"⟩,
     [.keyringDelete "gitpod-cli" "token", .configInit, .viperSetNil "token"], some e⟩
  | .ok kr => ⟨⟨kr, w.config⟩, [.keyringDelete "gitpod-cli" "token"], none⟩

/-- The values of `token` and `err` when control reaches the inner `if err != nil` of
`statusCmd.RunE` (auth.go lines 112-116), or line 121 when `keyring.Get` succeeded:
the token the read policy resolved, with the calls made to resolve it. -/
def statusReadToken (w : World) : String × Option Error × List Event :=
  -- token, err := keyring.Get("gitpod-cli", "token")
  match keyring.Get w.keyring "gitpod-cli" "token" with
  | .ok token => (token, none, [.keyringGet "gitpod-cli" "token"])
  | .error e =>
    -- config.Init(); token = viper.GetString("gitpod.token")
    (viper.GetString (config.Init w.config) "gitpod.token", some e,
     [.keyringGet "gitpod-cli" "token", .configInit, .viperGetString "gitpod.token"])

/-- The handler `statusCmd.RunE` (auth.go lines 108-141). It changes no local state. -/
def statusCmd (r : Remote) (w : World) : Outcome :=
  match statusReadToken w with
  | (_, some e, t0) =>
    -- inside `if err != nil { ... }`: `if err != nil { return err }`
    ⟨w, t0, some e⟩
  | (token, none, t0) =>
    -- if token == "" { fmt.Println("Not logged in") }
    let t1 := if token = "" then t0 ++ [.println "Not logged in"] else t0
    -- gitpod, err := common.ConstructGitpodClient(ctx, token)
    let t2 := t1 ++ [.constructGitpodClient token]
    match r.ConstructGitpodClient token with
    | some e => ⟨w, t2, some e⟩
    | none =>
      let t3 := t2 ++ [.listPersonalAccessTokens token]
      match r.ListPersonalAccessTokens token with
      | some e =>
        ⟨w, t3 ++ [.println "Logged in with invalid credentials. Please login again."],
         some e⟩
      | none =>
        ⟨w, t3 ++ [.configGet "host", .println ("Logged in to " ++ config.Get w.config "host")],
         none⟩

/-- Whether a trace entry is a call to the remote service. -/
def Event.isRemote : Event → Bool
  | .constructGitpodClient _ => true
  | .listPersonalAccessTokens _ => true
  | _ => false

/-- Whether a trace entry is a `config.Set` call. -/
def Event.isConfigSet : Event → Bool
  | .configSet _ _ => true
  | _ => false

/-! ## Concrete inputs -/

/-- A remote service that accepts every token. -/
def acceptAll : Remote := ⟨fun _ => none, fun _ => none⟩

/-- A writable config file with no entry. -/
def emptyConfig : ConfigStore := ⟨true, fun _ => ""⟩

/-- A config file that holds the token `"t"` under the key the read policy consults. -/
def tokenConfig : ConfigStore := ⟨true, fun k => if k = "gitpod.token" then "t" else ""⟩

/-- A reachable, writable keyring that holds nothing. -/
def usableKeyring : Keyring := ⟨true, true, fun _ _ => none⟩

/-- A keyring with no backend (headless machine): every call fails. -/
def brokenKeyring : Keyring := ⟨false, true, fun _ _ => none⟩

/-- Nothing stored anywhere, keyring usable. -/
def freshWorld : World := ⟨usableKeyring, emptyConfig⟩

/-- Nothing stored anywhere, keyring unavailable. -/
def headlessWorld : World := ⟨brokenKeyring, emptyConfig⟩

/-- Keyring usable but empty; the token lives in the config file only. -/
def configOnlyWorld : World := ⟨usableKeyring, tokenConfig⟩

/-- Keyring unavailable; the token lives in the config file only. -/
def headlessConfigWorld : World := ⟨brokenKeyring, tokenConfig⟩

/-- A library instance for concrete runs: identity Unicode mapping, every phase number
prints as `PHASE_RUNNING`, every timestamp as `now`, every workspace encodes as `{}`. -/
def demoLibrary : Library :=
  ⟨fun s => s, fun _ => goStr "PHASE_RUNNING", fun _ => goStr "now", fun _ => .ok (goStr "{}")⟩

/-! ## Basic facts about the stores -/

theorem sliceFrom_ok (s : GoString) (lo : Nat) (h : lo ≤ s.length) :
    sliceFrom s lo = .ok (s.drop lo) := by
  simp [sliceFrom, h]

theorem sliceFrom_error (s : GoString) (lo : Nat) (h : s.length < lo) :
    sliceFrom s lo = .error .sliceBounds := by
  simp [sliceFrom, Nat.not_le.mpr h]

theorem ToLower_nil (mapLower : GoString → GoString) : ToLower mapLower [] = [] := by
  simp [ToLower]

theorem keyring_Set_ok (k kr : Keyring) (service account secret : String)
    (h : keyring.Set k service account secret = .ok kr) :
    kr.reachable = true ∧ kr.secrets service account = some secret := by
  unfold keyring.Set at h
  cases hr : k.reachable <;> cases hp : k.permitted <;> simp [hr, hp] at h
  subst h
  simp [hr]

theorem keyring_Get_of_secret (k : Keyring) (service account secret : String)
    (hr : k.reachable = true) (hs : k.secrets service account = some secret) :
    keyring.Get k service account = .ok secret := by
  simp [keyring.Get, hr, hs]

/-! ## workspace list -/

/-- C8. For every byte string `s`, `TranslatePhase("PHASE_" ++ s)` returns `s` lower-cased;
`TranslatePhase("PHASE_RUNNING")` is `"running"`; and the row appended for a workspace
whose phase prints as `PHASE_<NAME>` carries the lower-cased `<NAME>` in its 2nd cell. -/
theorem TranslatePhase_strips_PHASE (lib : Library) (name workspaceId contextUrl : GoString)
    (createdAt : Option Timestamp) (phase : Int)
    (h : lib.phaseString phase = goStr "PHASE_" ++ name) :
    (∀ s : GoString,
        TranslatePhase lib.mapLower (goStr "PHASE_" ++ s) = .ok (ToLower lib.mapLower s)) ∧
    TranslatePhase lib.mapLower (goStr "PHASE_RUNNING") = .ok (goStr "running") ∧
    tableRow lib ⟨workspaceId, some ⟨some ⟨createdAt, some ⟨phase⟩⟩⟩, some ⟨contextUrl⟩⟩ =
      .ok [workspaceId, ToLower lib.mapLower name, lib.humanizeTime createdAt, contextUrl] := by
  have key : ∀ s : GoString,
      TranslatePhase lib.mapLower (goStr "PHASE_" ++ s) = .ok (ToLower lib.mapLower s) := by
    intro s
    have hlen : (goStr "PHASE_").length = 6 := by rfl
    have hdrop : (goStr "PHASE_" ++ s).drop 6 = s := by
      rw [← hlen]
      exact List.drop_left (goStr "PHASE_") s
    have hle : 6 ≤ (goStr "PHASE_" ++ s).length := by
      rw [List.length_append, hlen]
      exact Nat.le_add_right 6 s.length
    unfold TranslatePhase
    rw [sliceFrom_ok _ _ hle, hdrop]
  refine ⟨key, by rfl, ?_⟩
  simp only [tableRow, h, key]

/-- Witness for C8: a workspace in phase `PHASE_RUNNING` renders the cell `running`. -/
theorem TranslatePhase_strips_PHASE_witness :
    demoLibrary.phaseString 4 = goStr "PHASE_" ++ goStr "RUNNING" ∧
    tableRow demoLibrary
        ⟨goStr "ws-1", some ⟨some ⟨none, some ⟨4⟩⟩⟩, some ⟨goStr "https://github.com/a/b"⟩⟩ =
      .ok [goStr "ws-1", goStr "running", goStr "now", goStr "https://github.com/a/b"] :=
  ⟨by rfl,
   (TranslatePhase_strips_PHASE demoLibrary (goStr "RUNNING") (goStr "ws-1")
      (goStr "https://github.com/a/b") none 4 (by rfl)).2.2⟩

/-- C9 (evaluation). In JSON mode, the nil result of `ListWorkspaces` is printed as the
JSON value `null`, which is not an array; the non-nil empty slice is printed as `[]`. In
both runs no table is rendered and no error is returned. -/
theorem listWorkspaceCommand_json_nil (lib : Library) :
    listWorkspaceCommand lib none (.ok none) true =
      .ok ⟨[.println (goStr "null")], none⟩ ∧
    listWorkspaceCommand lib none (.ok (some [])) true =
      .ok ⟨[.println (goStr "[]")], none⟩ := by
  constructor <;> rfl

/-- C10. `TranslatePhase(s)` returns (does not panic) exactly when `s` has at least 6
bytes; on any input of 6 bytes followed by `rest` it returns `rest` lower-cased, whatever
the 6 bytes are; on a 6-byte input it returns the empty string; in general it is the
lower-casing of `s` without its first 6 bytes, or the slice-bounds panic. -/
theorem TranslatePhase_defined_iff (mapLower : GoString → GoString) (s rest : GoString)
    (a b c d e f : Nat) :
    ((∃ r, TranslatePhase mapLower s = .ok r) ↔ 6 ≤ s.length) ∧
    TranslatePhase mapLower (a :: b :: c :: d :: e :: f :: rest) = .ok (ToLower mapLower rest) ∧
    TranslatePhase mapLower [a, b, c, d, e, f] = .ok [] ∧
    TranslatePhase mapLower s =
      (if 6 ≤ s.length then .ok (ToLower mapLower (s.drop 6)) else .error .sliceBounds) := by
  have gen : ∀ t : GoString, TranslatePhase mapLower t =
      (if 6 ≤ t.length then .ok (ToLower mapLower (t.drop 6)) else .error .sliceBounds) := by
    intro t
    unfold TranslatePhase sliceFrom
    by_cases h : 6 ≤ t.length <;> simp [h]
  refine ⟨?_, ?_, ?_, gen s⟩
  · rw [gen s]
    by_cases h : 6 ≤ s.length <;> simp [h]
  · rw [gen]
    simp
  · rw [gen]
    simp [ToLower_nil]

/-- Witness for C10 on concrete inputs: five bytes panic, `"123456Ab"` gives `"ab"`. -/
theorem TranslatePhase_defined_iff_witness :
    TranslatePhase id (goStr "PHASE") = .error .sliceBounds ∧
    TranslatePhase id (goStr "123456Ab") = .ok (goStr "ab") :=
  ⟨(TranslatePhase_defined_iff id (goStr "PHASE") [] 0 0 0 0 0 0).2.2.2,
   (TranslatePhase_defined_iff id [] (goStr "Ab") 49 50 51 52 53 54).2.1⟩

/-! ## auth login / logout / status -/

/-- C1 (evaluation). With the keyring unavailable and an empty config file,
`auth login t` returns nil after writing `t` under the config key `token`; the read of
`auth status` then consults `gitpod.token`, resolves the empty string instead of `t`,
and the command returns the keyring error. -/
theorem login_then_status_read_mismatch :
    (loginCmd acceptAll headlessWorld "t" false false).err = none ∧
    (loginCmd acceptAll headlessWorld "t" false false).world.config.entries "token" = "t" ∧
    (statusReadToken (loginCmd acceptAll headlessWorld "t" false false).world).1 = "" ∧
    (statusCmd acceptAll (loginCmd acceptAll headlessWorld "t" false false).world).err =
      some .storeUnavailable := by
  refine ⟨by rfl, by rfl, by rfl, by rfl⟩

/-- C2 (evaluation). With nothing stored in a usable keyring nor in the config file,
`auth status` returns the `NotFound` error of `keyring.Get` and prints nothing, whatever
the remote service would answer; with the keyring unavailable it returns
`StoreUnavailable` in the same way. -/
theorem statusCmd_absent_returns_error (r : Remote) :
    (statusReadToken freshWorld).1 = "" ∧
    (statusCmd r freshWorld).err = some .notFound ∧
    (statusCmd r freshWorld).trace =
      [.keyringGet "gitpod-cli" "token", .configInit, .viperGetString "gitpod.token"] ∧
    (statusReadToken headlessWorld).1 = "" ∧
    (statusCmd r headlessWorld).err = some .storeUnavailable ∧
    (statusCmd r headlessWorld).trace =
      [.keyringGet "gitpod-cli" "token", .configInit, .viperGetString "gitpod.token"] := by
  refine ⟨by rfl, by rfl, by rfl, by rfl, by rfl, by rfl⟩

/-- C3 (evaluation). With an empty keyring and the token `t` in the config file under
`gitpod.token`, the read of `auth status` picks `t` up, but the command returns the
`NotFound` error of `keyring.Get` without contacting the remote service that would have
accepted the token. -/
theorem statusCmd_config_token_returns_error :
    (statusReadToken configOnlyWorld).1 = "t" ∧
    acceptAll.ConstructGitpodClient "t" = none ∧
    acceptAll.ListPersonalAccessTokens "t" = none ∧
    (statusCmd acceptAll configOnlyWorld).err = some .notFound ∧
    (statusCmd acceptAll configOnlyWorld).trace.any Event.isRemote = false := by
  refine ⟨by rfl, by rfl, by rfl, by rfl, by rfl⟩

/-- C4 (evaluation). With the keyring unavailable and the token `t` in the config file
under `gitpod.token`, `auth logout` returns the keyring error and clears only the key
`token`; the read of `auth status` afterwards still resolves `t`. The same happens when
the keyring is usable but empty. -/
theorem logout_leaves_config_token :
    (logoutCmd headlessConfigWorld).err = some .storeUnavailable ∧
    (logoutCmd headlessConfigWorld).trace.contains (.viperSetNil "token") = true ∧
    (statusReadToken (logoutCmd headlessConfigWorld).world).1 = "t" ∧
    (logoutCmd configOnlyWorld).err = some .notFound ∧
    (statusReadToken (logoutCmd configOnlyWorld).world).1 = "t" := by
  refine ⟨by rfl, by rfl, by rfl, by rfl, by rfl⟩

/-- C5. When verification is run and passes, `keyring.Set` fails with `e` and
`--prevent-plain` is set, `auth login t` returns `e`, never calls `config.Set`, and leaves
the keyring and the config file as they were; the read of `auth status` resolves afterwards
what it resolved before, the empty token if nothing was stored. -/
theorem login_prevent_plain_atomic (r : Remote) (w : World) (t : String) (e : Error)
    (hc : r.ConstructGitpodClient t = none) (hv : r.ListPersonalAccessTokens t = none)
    (hs : keyring.Set w.keyring "gitpod-cli" "token" t = .error e) :
    (loginCmd r w t false true).err = some e ∧
    (loginCmd r w t false true).world = w ∧
    (loginCmd r w t false true).trace.any Event.isConfigSet = false ∧
    statusReadToken (loginCmd r w t false true).world = statusReadToken w ∧
    (w.keyring.secrets "gitpod-cli" "token" = none → w.config.entries "gitpod.token" = "" →
      (statusReadToken (loginCmd r w t false true).world).1 = "") := by
  have hlogin : loginCmd r w t false true =
      ⟨w, [.constructGitpodClient t, .listPersonalAccessTokens t, .configInit,
           .configGet "host", .keyringSet "gitpod-cli" "token" t], some e⟩ := by
    simp [loginCmd, hc, hv, hs, config.Init]
  rw [hlogin]
  refine ⟨rfl, rfl, by rfl, rfl, ?_⟩
  intro hk hcfg
  simp only [statusReadToken, keyring.Get, hk, viper.GetString, config.Init, hcfg]
  cases w.keyring.reachable <;> rfl

/-- Witness for C5: a headless machine with nothing stored. -/
theorem login_prevent_plain_atomic_witness :
    keyring.Set headlessWorld.keyring "gitpod-cli" "token" "t" = .error .storeUnavailable ∧
    (loginCmd acceptAll headlessWorld "t" false true).err = some .storeUnavailable ∧
    (statusReadToken (loginCmd acceptAll headlessWorld "t" false true).world).1 = "" :=
  have h := login_prevent_plain_atomic acceptAll headlessWorld "t" .storeUnavailable
    (by rfl) (by rfl) (by rfl)
  ⟨by rfl, h.1, h.2.2.2.2 (by rfl) (by rfl)⟩

/-- C6 (evaluation). The handler `auth login t --no-verify` returns nil at once: it makes
no call and leaves every store as it was, so on a fresh machine the token is stored
nowhere, while the same login without the flag stores it in the keyring. -/
theorem login_no_verify_stores_nothing (r : Remote) (w : World) (t : String) (p : Bool) :
    (loginCmd r w t true p).err = none ∧
    (loginCmd r w t true p).trace = [] ∧
    (loginCmd r w t true p).world = w ∧
    (loginCmd acceptAll freshWorld "t" true false).world.keyring.secrets "gitpod-cli" "token"
      = none ∧
    (loginCmd acceptAll freshWorld "t" false false).world.keyring.secrets "gitpod-cli" "token"
      = some "t" := by
  refine ⟨by rfl, by rfl, by rfl, by rfl, by rfl⟩

/-- C7. When verification is run and passes and `keyring.Set` succeeds, `auth login t`
returns nil, the keyring holds `t` under service `gitpod-cli`, account `token` (and
`keyring.Get` returns it), `config.Set` is never called and the config file is unchanged. -/
theorem login_keyring_success_no_plaintext (r : Remote) (w : World) (t : String)
    (kr : Keyring)
    (hc : r.ConstructGitpodClient t = none) (hv : r.ListPersonalAccessTokens t = none)
    (hs : keyring.Set w.keyring "gitpod-cli" "token" t = .ok kr) :
    (loginCmd r w t false false).err = none ∧
    (loginCmd r w t false true).err = none ∧
    (loginCmd r w t false false).world.keyring.secrets "gitpod-cli" "token" = some t ∧
    keyring.Get (loginCmd r w t false false).world.keyring "gitpod-cli" "token" = .ok t ∧
    (loginCmd r w t false false).world.config = w.config ∧
    (∀ key : String, (loginCmd r w t false false).world.config.entries key =
      w.config.entries key) ∧
    (loginCmd r w t false false).trace.any Event.isConfigSet = false := by
  have hlogin : ∀ p : Bool, loginCmd r w t false p =
      ⟨⟨kr, w.config⟩,
       [.constructGitpodClient t, .listPersonalAccessTokens t, .configInit,
        .configGet "host", .keyringSet "gitpod-cli" "token" t,
        .println ("Successfully logged in to " ++ w.config.entries "host")], none⟩ := by
    intro p
    simp [loginCmd, hc, hv, hs, config.Init, config.Get]
  obtain ⟨hreach, hsec⟩ := keyring_Set_ok _ _ _ _ _ hs
  rw [hlogin, hlogin]
  refine ⟨rfl, rfl, hsec, keyring_Get_of_secret _ _ _ _ hreach hsec, rfl, fun _ => rfl, by rfl⟩

/-- Witness for C7: a fresh machine with a usable keyring. -/
theorem login_keyring_success_no_plaintext_witness :
    (loginCmd acceptAll freshWorld "t" false false).err = none ∧
    keyring.Get (loginCmd acceptAll freshWorld "t" false false).world.keyring
      "gitpod-cli" "token" = .ok "t" :=
  have h := login_keyring_success_no_plaintext acceptAll freshWorld "t"
    ⟨true, true, fun s a => if s = "gitpod-cli" ∧ a = "token" then some "t" else none⟩
    (by rfl) (by rfl) (by rfl)
  ⟨h.1, h.2.2.2.1⟩

end Gitpod
